import Mathlib

/-!
Verification of the tic-tac-toe game-state engine from `src/main.py`.

The Python engine keeps board cells and player symbols as strings
(`''` for an empty cell, `'X'`, `'O'`; the tie outcome is the string
`'tie'`), so the embedding uses `String` for cells, `Option String` for
the winner field (Python `Optional[str]`), and an association list for
the process-wide `games` dict.  FastAPI's `HTTPException` is embedded as
a status-code/detail pair; `raise` aborts the handler before any
mutation, so the table-level `make_move` returns the (unchanged) table
together with an `Except` value.
-/

namespace TicTacToe

/-- Embeds `fastapi.HTTPException(status_code=..., detail=...)`. -/
structure HTTPException where
  status_code : Nat
  detail : String
  deriving DecidableEq, Repr

/-- Embeds the `GameState` pydantic model of `src/main.py` (lines 17-23).
`created_at` is `datetime.now()` in Python; it is embedded as a `Nat`
supplied by the caller. -/
structure GameState where
  board : List String
  current_player : String
  winner : Option String
  game_over : Bool
  created_at : Nat
  deriving DecidableEq, Repr

/-- The process-wide `games` dict (line 15), as an association list. -/
abbrev Games : Type := List (String × GameState)

/-- The `winning_combinations` list of `check_winner` (lines 42-46):
three rows, three columns, two diagonals, in source order. -/
def winning_combinations : List (Nat × Nat × Nat) :=
  [(0, 1, 2), (3, 4, 5), (6, 7, 8),
   (0, 3, 6), (1, 4, 7), (2, 5, 8),
   (0, 4, 8), (2, 4, 6)]

/-- The loop-body condition of `check_winner` (lines 48-50):
`board[combo[0]] == board[combo[1]] == board[combo[2]] and board[combo[0]] != ''`
(Python chained comparison). -/
def combo_wins (board : List String) (c : Nat × Nat × Nat) : Bool :=
  board.getD c.1 "" == board.getD c.2.1 "" &&
  board.getD c.2.1 "" == board.getD c.2.2 "" &&
  !(board.getD c.1 "" == "")

/-- Embeds `check_winner` (lines 40-57): return the first winning
combination's symbol; else `'tie'` when no cell is `''`; else `None`. -/
def check_winner (board : List String) : Option String :=
  match winning_combinations.find? (combo_wins board) with
  | some c => some (board.getD c.1 "")
  | none => if board.contains "" then none else some "tie"

/-- Embeds `create_new_game` (lines 60-68). -/
def create_new_game (now : Nat) : GameState :=
  { board := List.replicate 9 ""
    current_player := "X"
    winner := none
    game_over := false
    created_at := now }

/-- Python truthiness of an `Optional[str]` value (`if winner:` at
line 134): `None` and `''` are falsy, every other string is truthy. -/
def truthy : Option String → Bool
  | none => false
  | some s => !(s == "")

/-- Embeds the in-place mutation of `game = games[game_id]` performed by
`make_move`: every table entry holding that key now holds the updated
game object. -/
def setGame (games : Games) (game_id : String) (g : GameState) : Games :=
  (games : List (String × GameState)).map
    (fun p => if p.1 == game_id then (p.1, g) else p)

/-- Embeds the per-game part of `make_move` (lines 117-144): the four
validations after the table lookup, then the move, the terminal check
and the player switch.  Success returns the updated game and the
status message. -/
def game_move (game : GameState) (position : Int) (player : String) :
    Except HTTPException (GameState × String) :=
  if game.game_over then
    .error ⟨400, "Game is already over"⟩
  else if position < 0 ∨ position > 8 then
    .error ⟨400, "Invalid position"⟩
  else if ¬ (game.board.getD position.toNat "" = "") then
    .error ⟨400, "Position already taken"⟩
  else if ¬ (player = game.current_player) then
    .error ⟨400, "Not your turn"⟩
  else
    let board1 := game.board.set position.toNat player
    let winner := check_winner board1
    if truthy winner then
      let game1 : GameState :=
        { game with board := board1, winner := winner, game_over := true }
      let msg : String :=
        if winner = some "tie" then "It\x27s a tie!"
        else "Player " ++ winner.getD "" ++ " wins!"
      .ok (game1, msg)
    else
      let next := if game.current_player = "X" then "O" else "X"
      let game1 : GameState :=
        { game with board := board1, current_player := next }
      .ok (game1, "Player " ++ next ++ "\x27s turn")

/-- Embeds the `make_move` endpoint (lines 110-153): look the game up
(404 when absent), run the validations and the move, and return the
games table as left after the call (unchanged whenever an
`HTTPException` is raised, since `raise` precedes every mutation). -/
def make_move (games : Games) (game_id : String) (position : Int)
    (player : String) : Games × Except HTTPException (GameState × String) :=
  match (games : List (String × GameState)).lookup game_id with
  | none => (games, .error ⟨404, "Game not found"⟩)
  | some game =>
    match game_move game position player with
    | .error e => (games, .error e)
    | .ok (game1, msg) => (setGame games game_id game1, .ok (game1, msg))

/-- Embeds the `new_game` endpoint (lines 75-89): generate the key
`game_\x7blen(games)+1\x7d_\x7btimestamp\x7d` and insert a fresh game. -/
def new_game (games : Games) (now : Nat) : Games × String :=
  let game_id := "game_" ++ toString ((games : List (String × GameState)).length + 1)
      ++ "_" ++ toString now
  ((games : List (String × GameState)) ++ [(game_id, create_new_game now)], game_id)

/-- Embeds the `get_game` endpoint (lines 92-106): pure lookup, 404 when
the key is absent, no mutation. -/
def get_game (games : Games) (game_id : String) : Except HTTPException GameState :=
  match (games : List (String × GameState)).lookup game_id with
  | none => .error ⟨404, "Game not found"⟩
  | some g => .ok g

/-- One externally triggerable operation on the games table:
`new_game`, `get_game` (no mutation) or `make_move`. -/
inductive SysStep : Games → Games → Prop where
  | create (games : Games) (now : Nat) : SysStep games (new_game games now).1
  | get (games : Games) (game_id : String) : SysStep games games
  | move (games : Games) (game_id : String) (position : Int) (player : String) :
      SysStep games (make_move games game_id position player).1

/-- Tables reachable from the initial empty `games` dict by any
sequence of the three operations. -/
def Reachable (games : Games) : Prop :=
  Relation.ReflTransGen SysStep ([] : Games) games

/-! ### The specification's description of `evaluate`, for the
refinement claim C1.  These definitions follow the spec's words, not
the source: the eight fixed triples in the stated order, first winning
triple's symbol, `Tie` when no triple wins and no cell is Empty,
otherwise `None`. -/

/-- The spec's eight fixed triples, in the spec's order: rows
`[0,1,2],[3,4,5],[6,7,8]`, columns `[0,3,6],[1,4,7],[2,5,8]`,
diagonals `[0,4,8],[2,4,6]`. -/
def spec_triples : List (Nat × Nat × Nat) :=
  [(0, 1, 2), (3, 4, 5), (6, 7, 8),
   (0, 3, 6), (1, 4, 7), (2, 5, 8),
   (0, 4, 8), (2, 4, 6)]

/-- The spec's winning condition for one triple: all three cells are
equal and non-Empty. -/
def triple_won (b : List String) (t : Nat × Nat × Nat) : Bool :=
  decide (b.getD t.1 "" = b.getD t.2.1 "" ∧ b.getD t.1 "" = b.getD t.2.2 "" ∧
    b.getD t.1 "" ≠ "")

/-- The symbol of the first winning triple under the spec's fixed scan
order, if any. -/
def first_win (b : List String) : List (Nat × Nat × Nat) → Option String
  | [] => none
  | t :: ts => if triple_won b t then some (b.getD t.1 "") else first_win b ts

/-- The spec's `evaluate`: symbol of the first winning triple; `Tie`
(serialized `"tie"` by the engine) when no triple wins and no cell is
Empty; otherwise `None`. -/
def evaluate_spec (b : List String) : Option String :=
  match first_win b spec_triples with
  | some s => some s
  | none => if b.all (fun c => !(c == "")) then some "tie" else none

/-- The inductive invariant maintained by the engine for every game in
the table: a 9-cell board, a well-formed current player, the
winner/game_over linkage, no winning triple while the game is in
progress, and the X/O cell-count discipline tied to whose turn it is. -/
def Wf (g : GameState) : Prop :=
  g.board.length = 9 ∧
  (g.current_player = "X" ∨ g.current_player = "O") ∧
  (g.winner = none ↔ g.game_over = false) ∧
  (g.game_over = false →
    winning_combinations.find? (combo_wins g.board) = none) ∧
  (g.game_over = false →
    (g.current_player = "X" ∧ g.board.count "X" = g.board.count "O") ∨
    (g.current_player = "O" ∧ g.board.count "X" = g.board.count "O" + 1)) ∧
  (g.game_over = true →
    g.board.count "X" = g.board.count "O" ∨
    g.board.count "X" = g.board.count "O" + 1)

/-! ### Helper lemmas -/

lemma combo_wins_eq_triple_won (b : List String) (t : Nat × Nat × Nat) :
    combo_wins b t = triple_won b t := by
  rw [Bool.eq_iff_iff]
  simp only [combo_wins, triple_won, Bool.and_eq_true, beq_iff_eq,
    Bool.not_eq_true', beq_eq_false_iff_ne, decide_eq_true_eq, ne_eq]
  constructor
  · rintro ⟨⟨h1, h2⟩, h3⟩
    exact ⟨h1, h1.trans h2, h3⟩
  · rintro ⟨h1, h2, h3⟩
    exact ⟨⟨h1, h1.symm.trans h2⟩, h3⟩

lemma first_win_eq_find? (b : List String) :
    ∀ ts : List (Nat × Nat × Nat),
      first_win b ts = (ts.find? (triple_won b)).map (fun t => b.getD t.1 "")
  | [] => rfl
  | t :: ts => by
    by_cases h : triple_won b t
    · simp [first_win, h]
    · simp [first_win, h, first_win_eq_find? b ts]

lemma contains_empty_eq (b : List String) :
    b.contains "" = !(b.all fun c => !(c == "")) := by
  induction b with
  | nil => rfl
  | cons x xs ih =>
    by_cases hx : x = ""
    · subst hx; simp
    · rw [List.contains_cons, List.all_cons, ih,
        beq_eq_false_iff_ne.mpr (Ne.symm hx), beq_eq_false_iff_ne.mpr hx]
      simp

lemma getD_set_self (l : List String) (n : Nat) (a : String)
    (h : n < l.length) : (l.set n a).getD n "" = a := by
  simp [List.getD_eq_getElem?_getD, List.getElem?_set_self h]

lemma getD_set_ne (l : List String) (n m : Nat) (a : String)
    (h : n ≠ m) : (l.set n a).getD m "" = l.getD m "" := by
  simp [List.getD_eq_getElem?_getD, List.getElem?_set_ne h]

lemma count_set_of_empty (l : List String) (n : Nat) (a b : String)
    (h : n < l.length) (he : l.getD n "" = "") (hb : b ≠ "") :
    (l.set n a).count b = l.count b + if a = b then 1 else 0 := by
  have hgd : l[n] = "" := by
    rw [← he, List.getD_eq_getElem?_getD, List.getElem?_eq_getElem h,
      Option.getD_some]
  rw [List.count_set a b l n h, hgd,
    beq_eq_false_iff_ne.mpr (Ne.symm hb)]
  by_cases hab : a = b
  · simp [hab]
  · simp [hab, beq_eq_false_iff_ne.mpr hab]

lemma lookup_cons_ite (k a : String) (b : GameState) (es : Games) :
    ((a, b) :: es).lookup k = if k = a then some b else es.lookup k := by
  by_cases h : k = a
  · subst h; simp [List.lookup_cons]
  · simp [List.lookup_cons, beq_eq_false_iff_ne.mpr h, h]

lemma setGame_cons (a : String) (b : GameState) (es : Games)
    (game_id : String) (g : GameState) :
    setGame ((a, b) :: es) game_id g =
      (if a = game_id then (a, g) else (a, b)) :: setGame es game_id g := by
  by_cases h : a = game_id
  · simp [setGame, h]
  · simp [setGame, h, beq_eq_false_iff_ne.mpr h]

lemma lookup_setGame_of_ne (games : Games) (game_id k : String)
    (g : GameState) (h : k ≠ game_id) :
    (setGame games game_id g).lookup k = games.lookup k := by
  induction games with
  | nil => rfl
  | cons p t ih =>
    obtain ⟨a, b⟩ := p
    rw [setGame_cons]
    by_cases ha : a = game_id
    · have hka : k ≠ a := fun hk => h (hk ▸ ha)
      simp [ha, lookup_cons_ite, hka, ih, h]
    · simp [ha, lookup_cons_ite, ih]

lemma lookup_setGame_self (games : Games) (game_id : String)
    (g g0 : GameState) (h : games.lookup game_id = some g0) :
    (setGame games game_id g).lookup game_id = some g := by
  induction games with
  | nil => simp at h
  | cons p t ih =>
    obtain ⟨a, b⟩ := p
    rw [setGame_cons]
    by_cases ha : a = game_id
    · subst ha; simp [lookup_cons_ite]
    · have hka : game_id ≠ a := fun hk => ha hk.symm
      rw [lookup_cons_ite game_id a b t, if_neg hka] at h
      simp [ha, lookup_cons_ite, hka, ih h]

lemma lookup_setGame_cases (games : Games) (game_id k : String)
    (g g1 : GameState)
    (h : (setGame games game_id g1).lookup k = some g) :
    games.lookup k = some g ∨ (k = game_id ∧ g = g1) := by
  induction games with
  | nil => simp [setGame] at h
  | cons p t ih =>
    obtain ⟨a, b⟩ := p
    rw [setGame_cons] at h
    by_cases ha : a = game_id
    · subst ha
      rw [if_pos rfl, lookup_cons_ite] at h
      by_cases hka : k = a
      · right
        refine ⟨hka, ?_⟩
        rw [if_pos hka] at h
        exact (Option.some.injEq _ _ ▸ h).symm
      · rw [if_neg hka] at h
        rcases ih h with h' | h'
        · left; rw [lookup_cons_ite, if_neg hka]; exact h'
        · right; exact h'
    · rw [if_neg ha, lookup_cons_ite] at h
      by_cases hka : k = a
      · left
        rw [if_pos hka] at h
        rw [lookup_cons_ite, if_pos hka]
        exact h
      · rw [if_neg hka] at h
        rcases ih h with h' | h'
        · left; rw [lookup_cons_ite, if_neg hka]; exact h'
        · right; exact h'

/-- The table returned by `make_move` is either untouched (a validation
raised) or the input table with the moved game's entry replaced. -/
lemma make_move_fst (games : Games) (game_id : String) (position : Int)
    (player : String) :
    (make_move games game_id position player).1 = games ∨
    ∃ g g1 msg, games.lookup game_id = some g ∧
      game_move g position player = .ok (g1, msg) ∧
      (make_move games game_id position player).1 = setGame games game_id g1 := by
  unfold make_move
  cases hlk : games.lookup game_id with
  | none => left; rfl
  | some g =>
    dsimp only
    cases hmv : game_move g position player with
    | error e => left; rfl
    | ok r =>
      obtain ⟨g1, msg⟩ := r
      right
      exact ⟨g, g1, msg, rfl, hmv, rfl⟩

/-- Successful `game_move` calls: the four checks passed and the result
is the terminal update or the player-switching update. -/
lemma game_move_ok (game : GameState) (position : Int) (player : String)
    (g1 : GameState) (msg : String)
    (h : game_move game position player = .ok (g1, msg)) :
    game.game_over = false ∧ ¬(position < 0 ∨ position > 8) ∧
    game.board.getD position.toNat "" = "" ∧
    player = game.current_player ∧
    ((truthy (check_winner (game.board.set position.toNat player)) = true ∧
      g1 = { game with
               board := game.board.set position.toNat player,
               winner := check_winner (game.board.set position.toNat player),
               game_over := true }) ∨
     (truthy (check_winner (game.board.set position.toNat player)) = false ∧
      g1 = { game with
               board := game.board.set position.toNat player,
               current_player :=
                 if game.current_player = "X" then "O" else "X" })) := by
  by_cases hov : game.game_over = true
  · rw [game_move, if_pos hov] at h; exact Except.noConfusion h
  by_cases hpos : position < 0 ∨ position > 8
  · rw [game_move, if_neg hov, if_pos hpos] at h; exact Except.noConfusion h
  by_cases hcell : game.board.getD position.toNat "" = ""
  case neg =>
    rw [game_move, if_neg hov, if_neg hpos, if_pos hcell] at h
    exact Except.noConfusion h
  by_cases hpl : player = game.current_player
  case neg =>
    rw [game_move, if_neg hov, if_neg hpos, if_neg (not_not_intro hcell),
      if_pos hpl] at h
    exact Except.noConfusion h
  rw [game_move, if_neg hov, if_neg hpos, if_neg (not_not_intro hcell),
    if_neg (not_not_intro hpl)] at h
  dsimp only at h
  have hov' : game.game_over = false := by simpa using hov
  refine ⟨hov', hpos, hcell, hpl, ?_⟩
  cases htr : truthy (check_winner (game.board.set position.toNat player)) with
  | false =>
    rw [if_neg (by simp [htr])] at h
    right
    refine ⟨rfl, ?_⟩
    exact ((Prod.mk.injEq _ _ _ _).mp ((Except.ok.injEq _ _).mp h)).1.symm
  | true =>
    rw [if_pos htr] at h
    left
    refine ⟨rfl, ?_⟩
    exact ((Prod.mk.injEq _ _ _ _).mp ((Except.ok.injEq _ _).mp h)).1.symm

/-- When `check_winner` is falsy the scan found no winning combination. -/
lemma find_none_of_not_truthy (b : List String)
    (h : truthy (check_winner b) = false) :
    winning_combinations.find? (combo_wins b) = none := by
  cases hf : winning_combinations.find? (combo_wins b) with
  | none => rfl
  | some c =>
    exfalso
    have hc : combo_wins b c = true := List.find?_some hf
    have hne : (b.getD c.1 "" == "") = false := by
      simp only [combo_wins, Bool.and_eq_true, Bool.not_eq_true'] at hc
      exact hc.2
    have : check_winner b = some (b.getD c.1 "") := by
      unfold check_winner
      rw [hf]
    rw [this] at h
    simp only [truthy, hne] at h
    exact Bool.true_eq_false ▸ h

lemma Wf_create (now : Nat) : Wf (create_new_game now) := by
  have hb : (create_new_game now).board = List.replicate 9 "" := rfl
  have hc : (create_new_game now).current_player = "X" := rfl
  have hw : (create_new_game now).winner = none := rfl
  have hgo : (create_new_game now).game_over = false := rfl
  refine ⟨by rw [hb]; decide, Or.inl hc, by rw [hw, hgo]; simp, ?_, ?_, ?_⟩
  · intro _; rw [hb]; decide
  · intro _; left; refine ⟨hc, ?_⟩; rw [hb]; decide
  · intro h; rw [hgo] at h; exact absurd h (by simp)

/-- A successful move preserves the engine invariant. -/
lemma Wf_game_move (game : GameState) (position : Int) (player : String)
    (g1 : GameState) (msg : String) (hwf : Wf game)
    (h : game_move game position player = .ok (g1, msg)) : Wf g1 := by
  obtain ⟨hlen, hcur, hwin, hnowin, hturn, hcnt⟩ := hwf
  obtain ⟨hov, hpos, hcell, hpl, hres⟩ := game_move_ok _ _ _ _ _ h
  have hlt : position.toNat < game.board.length := by
    rw [hlen]; omega
  have hcX : (game.board.set position.toNat player).count "X" =
      game.board.count "X" + if player = "X" then 1 else 0 :=
    count_set_of_empty _ _ _ _ hlt hcell (by decide)
  have hcO : (game.board.set position.toNat player).count "O" =
      game.board.count "O" + if player = "O" then 1 else 0 :=
    count_set_of_empty _ _ _ _ hlt hcell (by decide)
  have hturn' := hturn hov
  rcases hres with ⟨htr, rfl⟩ | ⟨htr, rfl⟩
  · -- terminal branch: winner set, game over
    refine ⟨by simpa using hlen, hcur, ?_, ?_, ?_, ?_⟩
    · constructor
      · intro hnone
        exfalso
        simp only at hnone
        rw [hnone] at htr
        exact Bool.noConfusion ((truthy.eq_1).symm.trans htr)
      · intro hfalse
        exact absurd hfalse (by simp)
    · intro hfalse
      exact absurd hfalse (by simp)
    · intro hfalse
      exact absurd hfalse (by simp)
    · intro _
      simp only
      rcases hturn' with ⟨hx, hc⟩ | ⟨ho, hc⟩
      · rw [hcX, hcO, hpl, hx]
        simp [hc]
      · rw [hcX, hcO, hpl, ho]
        simp [hc]
  · -- player-switch branch: winner and game_over unchanged
    refine ⟨by simpa using hlen, ?_, ?_, ?_, ?_, ?_⟩
    · simp only
      by_cases hx : game.current_player = "X" <;> simp [hx]
    · simpa using hwin
    · intro _
      simp only
      exact find_none_of_not_truthy _ htr
    · intro _
      simp only
      rcases hturn' with ⟨hx, hc⟩ | ⟨ho, hc⟩
      · right
        rw [hcX, hcO, hpl, hx]
        refine ⟨by simp [hx], by simp [hc]⟩
      · left
        have ho' : ¬ game.current_player = "X" := by rw [ho]; decide
        rw [hcX, hcO, hpl, ho]
        refine ⟨by simp [ho'], by simp [hc]⟩
    · intro hfalse
      simp only at hfalse
      rw [hov] at hfalse
      exact absurd hfalse (by simp)

/-- Any property of individual games preserved by successful moves, and
present on a given key, survives one system step; the key stays bound. -/
lemma SysStep_key_persist (P : GameState → Prop)
    (hpres : ∀ g pos player g1 msg,
      P g → game_move g pos player = .ok (g1, msg) → P g1)
    {games games' : Games} (hstep : SysStep games games') (k : String)
    (g : GameState) (hlk : games.lookup k = some g) (hP : P g) :
    ∃ g', games'.lookup k = some g' ∧ P g' := by
  cases hstep with
  | create now =>
    refine ⟨g, ?_, hP⟩
    show (games ++ [_]).lookup k = some g
    rw [List.lookup_append, hlk]
    rfl
  | get game_id => exact ⟨g, hlk, hP⟩
  | move game_id pos player =>
    rcases make_move_fst games game_id pos player with heq |
      ⟨g0, g1, msg, hlk0, hmv, heq⟩
    · rw [heq]; exact ⟨g, hlk, hP⟩
    · rw [heq]
      by_cases hk : k = game_id
      · subst hk
        have hg0 : g0 = g := by
          rw [hlk] at hlk0
          exact (Option.some.injEq _ _ ▸ hlk0).symm
        subst hg0
        exact ⟨g1, lookup_setGame_self games k g1 g0 hlk0,
          hpres g0 pos player g1 msg hP hmv⟩
      · rw [lookup_setGame_of_ne _ _ _ _ hk]
        exact ⟨g, hlk, hP⟩

/-- `SysStep_key_persist` lifted to operation sequences. -/
lemma rtg_key_persist (P : GameState → Prop)
    (hpres : ∀ g pos player g1 msg,
      P g → game_move g pos player = .ok (g1, msg) → P g1)
    {games games' : Games}
    (hsteps : Relation.ReflTransGen SysStep games games') (k : String)
    (g : GameState) (hlk : games.lookup k = some g) (hP : P g) :
    ∃ g', games'.lookup k = some g' ∧ P g' := by
  induction hsteps with
  | refl => exact ⟨g, hlk, hP⟩
  | tail _ hstep ih =>
    obtain ⟨g', hlk', hP'⟩ := ih
    exact SysStep_key_persist P hpres hstep _ g' hlk' hP'

/-- One system step preserves table-wide well-formedness. -/
lemma SysStep_preserves_Wf {games games' : Games}
    (hstep : SysStep games games')
    (h : ∀ k g, games.lookup k = some g → Wf g) :
    ∀ k g, games'.lookup k = some g → Wf g := by
  cases hstep with
  | create now =>
    intro k g hlk
    rw [show (new_game games now).1
        = games ++ [("game_" ++ toString (games.length + 1) ++ "_" ++ toString now,
            create_new_game now)] from rfl,
      List.lookup_append] at hlk
    cases hl : games.lookup k with
    | some g0 =>
      rw [hl] at hlk
      exact h k g (hl.trans (Option.some.injEq _ _ ▸ hlk.symm ▸ rfl))
    | none =>
      rw [hl] at hlk
      simp only [Option.none_or] at hlk
      rw [lookup_cons_ite] at hlk
      by_cases hk : k = "game_" ++ toString (games.length + 1) ++ "_" ++ toString now
      · rw [if_pos hk] at hlk
        have : g = create_new_game now := (Option.some.injEq _ _ ▸ hlk).symm
        rw [this]
        exact Wf_create now
      · rw [if_neg hk] at hlk
        exact absurd hlk (by simp)
  | get game_id => exact h
  | move game_id pos player =>
    intro k g hlk
    rcases make_move_fst games game_id pos player with heq |
      ⟨g0, g1, msg, hlk0, hmv, heq⟩
    · rw [heq] at hlk; exact h k g hlk
    · rw [heq] at hlk
      rcases lookup_setGame_cases games game_id k g g1 hlk with h' | ⟨_, hg⟩
      · exact h k g h'
      · rw [hg]
        exact Wf_game_move g0 pos player g1 msg (h game_id g0 hlk0) hmv

/-- Every game in a reachable table satisfies the engine invariant. -/
lemma reachable_Wf {games : Games} (h : Reachable games) :
    ∀ k g, games.lookup k = some g → Wf g := by
  have h' : Relation.ReflTransGen SysStep ([] : Games) games := h
  clear h
  induction h' with
  | refl => intro k g hlk; exact absurd hlk (by simp)
  | tail _ hstep ih => exact SysStep_preserves_Wf hstep ih

/-! ### Claim theorems -/

/-- C1: `check_winner` examines exactly the eight fixed triples — rows
`[0,1,2],[3,4,5],[6,7,8]`, columns `[0,3,6],[1,4,7],[2,5,8]`, diagonals
`[0,4,8],[2,4,6]` — in that fixed order, returns the symbol of the
first triple whose three cells are equal and non-Empty, returns the tie
value if no triple wins and no cell is Empty, and `none` otherwise:
on every board it coincides with the spec's `evaluate`. -/
theorem C1_check_winner_eq_evaluate_spec (board : List String) :
    check_winner board = evaluate_spec board := by
  have hfun : combo_wins board = triple_won board :=
    funext (combo_wins_eq_triple_won board)
  unfold check_winner evaluate_spec
  rw [first_win_eq_find?, show spec_triples = winning_combinations from rfl,
    ← hfun]
  cases hf : winning_combinations.find? (combo_wins board) with
  | some c => rfl
  | none =>
    show (if board.contains "" then none else some "tie") = _
    rw [contains_empty_eq]
    cases hall : board.all (fun c => !(c == "")) <;> simp

/-- C2: `make_move` runs its five validations in source order —
missing key, finished game, out-of-range position, occupied cell,
out-of-turn player — the first failing check fixing the outcome, and a
failing call returns the table unchanged. -/
theorem C2_validation_order (games : Games) (game_id : String)
    (pos : Int) (player : String) :
    (games.lookup game_id = none →
      make_move games game_id pos player =
        (games, .error ⟨404, "Game not found"⟩)) ∧
    (∀ g, games.lookup game_id = some g →
      (g.game_over = true →
        make_move games game_id pos player =
          (games, .error ⟨400, "Game is already over"⟩)) ∧
      (g.game_over = false → (pos < 0 ∨ pos > 8) →
        make_move games game_id pos player =
          (games, .error ⟨400, "Invalid position"⟩)) ∧
      (g.game_over = false → ¬(pos < 0 ∨ pos > 8) →
        g.board.getD pos.toNat "" ≠ "" →
        make_move games game_id pos player =
          (games, .error ⟨400, "Position already taken"⟩)) ∧
      (g.game_over = false → ¬(pos < 0 ∨ pos > 8) →
        g.board.getD pos.toNat "" = "" → player ≠ g.current_player →
        make_move games game_id pos player =
          (games, .error ⟨400, "Not your turn"⟩))) := by
  constructor
  · intro h
    unfold make_move
    rw [h]
  · intro g hlk
    refine ⟨?_, ?_, ?_, ?_⟩
    · intro hov
      unfold make_move
      rw [hlk]
      dsimp only
      rw [game_move, if_pos hov]
    · intro hov hpos
      unfold make_move
      rw [hlk]
      dsimp only
      rw [game_move, if_neg (by simp [hov]), if_pos hpos]
    · intro hov hpos hcell
      unfold make_move
      rw [hlk]
      dsimp only
      rw [game_move, if_neg (by simp [hov]), if_neg hpos, if_pos hcell]
    · intro hov hpos hcell hpl
      unfold make_move
      rw [hlk]
      dsimp only
      rw [game_move, if_neg (by simp [hov]), if_neg hpos,
        if_neg (not_not_intro hcell), if_pos hpl]

/-- C2 witness: with cell 0 occupied by X and O out of turn, the
occupied-cell failure is the one reported. -/
theorem C2_validation_order_witness :
    make_move
      [("g1", GameState.mk ["X", "", "", "", "", "", "", "", ""] "X" none false 0)]
      "g1" 0 "O" =
    ([("g1", GameState.mk ["X", "", "", "", "", "", "", "", ""] "X" none false 0)],
      .error ⟨400, "Position already taken"⟩) :=
  ((C2_validation_order
      [("g1", GameState.mk ["X", "", "", "", "", "", "", "", ""] "X" none false 0)]
      "g1" 0 "O").2
    (GameState.mk ["X", "", "", "", "", "", "", "", ""] "X" none false 0)
    (by decide)).2.2.1 rfl (by decide) (by decide)

/-- C3: a move that passes all five validations and leaves the game
undecided writes `player` into `board[position]`, leaves every other
cell unchanged, and flips `current_player` to the other symbol. -/
theorem C3_nonterminal_move (games : Games) (game_id : String) (pos : Int)
    (player : String) (g : GameState)
    (hlen : g.board.length = 9)
    (hlk : games.lookup game_id = some g)
    (hov : g.game_over = false)
    (hpos : ¬(pos < 0 ∨ pos > 8))
    (hcell : g.board.getD pos.toNat "" = "")
    (hpl : player = g.current_player)
    (hcont : check_winner (g.board.set pos.toNat player) = none) :
    make_move games game_id pos player =
      (setGame games game_id
        { g with board := g.board.set pos.toNat player,
                 current_player := if player = "X" then "O" else "X" },
       .ok ({ g with
                board := g.board.set pos.toNat player,
                current_player := if player = "X" then "O" else "X" },
         "Player " ++ (if player = "X" then "O" else "X") ++ "\x27s turn")) ∧
    (g.board.set pos.toNat player).getD pos.toNat "" = player ∧
    (∀ i, i ≠ pos.toNat →
      (g.board.set pos.toNat player).getD i "" = g.board.getD i "") := by
  refine ⟨?_, ?_, ?_⟩
  · unfold make_move
    rw [hlk]
    dsimp only
    rw [game_move, if_neg (by simp [hov]), if_neg hpos,
      if_neg (not_not_intro hcell), if_neg (not_not_intro hpl)]
    dsimp only
    rw [hcont]
    rw [if_neg (by rw [show truthy none = false from rfl]; simp), ← hpl]
  · exact getD_set_self _ _ _ (by rw [hlen]; omega)
  · intro i hi
    exact getD_set_ne _ _ _ _ (fun h => hi h.symm)

/-- C3 witness: X takes cell 0 of a fresh game; the cell now holds X
and the turn passes to O. -/
theorem C3_nonterminal_move_witness :
    make_move [("g1", create_new_game 0)] "g1" 0 "X" =
      ([("g1", GameState.mk ["X", "", "", "", "", "", "", "", ""] "O" none false 0)],
       .ok (GameState.mk ["X", "", "", "", "", "", "", "", ""] "O" none false 0,
         "Player O\x27s turn")) ∧
    (["X", "", "", "", "", "", "", "", ""] : List String).getD 0 "" = "X" :=
  have h := C3_nonterminal_move [("g1", create_new_game 0)] "g1" 0 "X"
    (create_new_game 0) (by decide) rfl rfl (by decide) (by decide) rfl
    (by decide)
  ⟨h.1, h.2.1⟩

/-- C4: a finished game's table entry is never changed by any later
operation sequence, and every `make_move` against it fails with the
`InvalidState` signal (400, "Game is already over") leaving the table
untouched. -/
theorem C4_terminal_monotone (games games' : Games) (game_id : String)
    (g : GameState)
    (hsteps : Relation.ReflTransGen SysStep games games')
    (hlk : games.lookup game_id = some g)
    (hover : g.game_over = true) :
    games'.lookup game_id = some g ∧
    ∀ pos player, make_move games' game_id pos player =
      (games', .error ⟨400, "Game is already over"⟩) := by
  have hpres : ∀ g0 pos player g1 msg, g0 = g →
      game_move g0 pos player = .ok (g1, msg) → g1 = g := by
    intro g0 pos player g1 msg hg hmv
    subst hg
    rw [game_move, if_pos hover] at hmv
    exact Except.noConfusion hmv
  obtain ⟨g', hlk', hg'⟩ := rtg_key_persist _ hpres hsteps game_id g hlk rfl
  subst hg'
  refine ⟨hlk', ?_⟩
  intro pos player
  unfold make_move
  rw [hlk']
  dsimp only
  rw [game_move, if_pos hover]

/-- C4 witness: a concrete finished game rejects a further move with
the finished-game failure and an unchanged table. -/
theorem C4_terminal_monotone_witness :
    make_move
      [("g1", GameState.mk ["X", "X", "X", "O", "O", "", "", "", ""] "X"
          (some "X") true 0)] "g1" 5 "O" =
    ([("g1", GameState.mk ["X", "X", "X", "O", "O", "", "", "", ""] "X"
        (some "X") true 0)],
      .error ⟨400, "Game is already over"⟩) :=
  (C4_terminal_monotone
    [("g1", GameState.mk ["X", "X", "X", "O", "O", "", "", "", ""] "X"
        (some "X") true 0)]
    [("g1", GameState.mk ["X", "X", "X", "O", "O", "", "", "", ""] "X"
        (some "X") true 0)]
    "g1" _ Relation.ReflTransGen.refl rfl rfl).2 5 "O"

/-- C5: after a successful move into a position of a reachable game,
every later `make_move` aimed at that same position fails with an
`InvalidState` signal (400, finished game or occupied cell) and
returns the table unchanged. -/
theorem C5_occupied_position_fails (games games1 games2 : Games)
    (game_id : String) (pos : Int) (player player' : String)
    (g1 : GameState) (msg : String)
    (hreach : Reachable games)
    (hmv : make_move games game_id pos player = (games1, .ok (g1, msg)))
    (hsteps : Relation.ReflTransGen SysStep games1 games2) :
    make_move games2 game_id pos player' =
      (games2, .error ⟨400, "Game is already over"⟩) ∨
    make_move games2 game_id pos player' =
      (games2, .error ⟨400, "Position already taken"⟩) := by
  -- unpack the successful first call
  unfold make_move at hmv
  cases hlk : games.lookup game_id with
  | none =>
    rw [hlk] at hmv
    exact absurd (congrArg Prod.snd hmv) (by simp)
  | some g0 =>
    rw [hlk] at hmv
    dsimp only at hmv
    cases hgm : game_move g0 pos player with
    | error e =>
      rw [hgm] at hmv
      exact absurd (congrArg Prod.snd hmv) (by simp)
    | ok r =>
      obtain ⟨ga, msga⟩ := r
      rw [hgm] at hmv
      have hfst : setGame games game_id ga = games1 :=
        congrArg Prod.fst hmv
      have hga : ga = g1 := by
        have hsnd := congrArg Prod.snd hmv
        simp only at hsnd
        exact ((Prod.mk.injEq _ _ _ _).mp
          ((Except.ok.injEq _ _).mp hsnd)).1
      subst hga
      obtain ⟨hov0, hpos0, hcell0, hpl0, hbr⟩ := game_move_ok _ _ _ _ _ hgm
      have hwf := reachable_Wf hreach game_id g0 hlk
      have hplne : player ≠ "" := by
        rcases hwf.2.1 with hx | ho
        · rw [hpl0, hx]; decide
        · rw [hpl0, ho]; decide
      have hlt : pos.toNat < g0.board.length := by
        rw [hwf.1]; omega
      have hocc : ga.board.getD pos.toNat "" ≠ "" := by
        rcases hbr with ⟨_, rfl⟩ | ⟨_, rfl⟩ <;>
          simpa [List.getD_eq_getElem?_getD, List.getElem?_set_self hlt]
            using hplne
      have hlk1 : games1.lookup game_id = some ga := by
        rw [← hfst]
        exact lookup_setGame_self games game_id ga g0 hlk
      -- the occupied cell persists through any later operation sequence
      have hpres : ∀ gz pz plz gz1 msgz,
          gz.board.getD pos.toNat "" ≠ "" →
          game_move gz pz plz = .ok (gz1, msgz) →
          gz1.board.getD pos.toNat "" ≠ "" := by
        intro gz pz plz gz1 msgz hPz hmz
        obtain ⟨_, _, hcz, _, hbz⟩ := game_move_ok _ _ _ _ _ hmz
        have hne : pz.toNat ≠ pos.toNat := by
          intro he
          rw [he] at hcz
          exact hPz hcz
        rcases hbz with ⟨_, rfl⟩ | ⟨_, rfl⟩ <;>
          simpa [List.getD_eq_getElem?_getD, List.getElem?_set_ne hne]
            using hPz
      obtain ⟨g2, hlk2, hocc2⟩ :=
        rtg_key_persist _ hpres hsteps game_id ga hlk1 hocc
      -- the later call fails at the finished-game or the occupied check
      cases hgo2 : g2.game_over with
      | true =>
        left
        unfold make_move
        rw [hlk2]
        dsimp only
        rw [game_move, if_pos hgo2]
      | false =>
        right
        unfold make_move
        rw [hlk2]
        dsimp only
        rw [game_move, if_neg (by simp [hgo2]), if_neg hpos0,
          if_pos hocc2]

/-- C5 witness: after X takes cell 0 of a fresh game, O aiming at
cell 0 is rejected as occupied with the table unchanged. -/
theorem C5_occupied_position_fails_witness :
    make_move [("game_1_0", GameState.mk
        ["X", "", "", "", "", "", "", "", ""] "O" none false 0)]
      "game_1_0" 0 "O" =
    ([("game_1_0", GameState.mk
        ["X", "", "", "", "", "", "", "", ""] "O" none false 0)],
      .error ⟨400, "Game is already over"⟩) ∨
    make_move [("game_1_0", GameState.mk
        ["X", "", "", "", "", "", "", "", ""] "O" none false 0)]
      "game_1_0" 0 "O" =
    ([("game_1_0", GameState.mk
        ["X", "", "", "", "", "", "", "", ""] "O" none false 0)],
      .error ⟨400, "Position already taken"⟩) :=
  C5_occupied_position_fails
    [("game_1_0", create_new_game 0)]
    [("game_1_0", GameState.mk
        ["X", "", "", "", "", "", "", "", ""] "O" none false 0)]
    [("game_1_0", GameState.mk
        ["X", "", "", "", "", "", "", "", ""] "O" none false 0)]
    "game_1_0" 0 "X" "O"
    (GameState.mk ["X", "", "", "", "", "", "", "", ""] "O" none false 0)
    "Player O\x27s turn"
    (Relation.ReflTransGen.single (SysStep.create [] 0))
    rfl
    Relation.ReflTransGen.refl

/-- C6: in every reachable table, a game's `winner` is non-`None`
exactly when its `game_over` flag is set. -/
theorem C6_winner_iff_game_over (games : Games) (hreach : Reachable games)
    (k : String) (g : GameState) (hlk : games.lookup k = some g) :
    g.winner ≠ none ↔ g.game_over = true := by
  have h3 := (reachable_Wf hreach k g hlk).2.2.1
  have h4 := not_iff_not.mpr h3
  simpa using h4

/-- C6 witness: the invariant holds for the game of a freshly created
table. -/
theorem C6_winner_iff_game_over_witness :
    (create_new_game 0).winner ≠ none ↔
      (create_new_game 0).game_over = true :=
  C6_winner_iff_game_over [("game_1_0", create_new_game 0)]
    (Relation.ReflTransGen.single (SysStep.create [] 0))
    "game_1_0" (create_new_game 0) rfl

/-- C7: in every reachable table, each game's board holds either
equally many X and O cells or exactly one more X than O. -/
theorem C7_count_balance (games : Games) (hreach : Reachable games)
    (k : String) (g : GameState) (hlk : games.lookup k = some g) :
    g.board.count "X" = g.board.count "O" ∨
    g.board.count "X" = g.board.count "O" + 1 := by
  have hwf := reachable_Wf hreach k g hlk
  cases hgo : g.game_over with
  | false =>
    rcases hwf.2.2.2.2.1 hgo with ⟨_, h⟩ | ⟨_, h⟩
    · exact Or.inl h
    · exact Or.inr h
  | true => exact hwf.2.2.2.2.2 hgo

/-- C7 witness: the count balance holds for the game of a freshly
created table. -/
theorem C7_count_balance_witness :
    (create_new_game 0).board.count "X" = (create_new_game 0).board.count "O" ∨
    (create_new_game 0).board.count "X" =
      (create_new_game 0).board.count "O" + 1 :=
  C7_count_balance [("game_1_0", create_new_game 0)]
    (Relation.ReflTransGen.single (SysStep.create [] 0))
    "game_1_0" (create_new_game 0) rfl

/-- C8 counterexample: on a board whose first row is all X and whose
second row is all O, the listed row `[3,4,5]` consists of the single
non-Empty symbol O, yet `check_winner` returns X (the first winning
triple in scan order), not O. -/
theorem C8_counterexample :
    (["X", "X", "X", "O", "O", "O", "", "", ""] : List String).getD 3 "" = "O" ∧
    (["X", "X", "X", "O", "O", "O", "", "", ""] : List String).getD 4 "" = "O" ∧
    (["X", "X", "X", "O", "O", "O", "", "", ""] : List String).getD 5 "" = "O" ∧
    ("O" : String) ≠ "" ∧
    (3, 4, 5) ∈ winning_combinations ∧
    check_winner ["X", "X", "X", "O", "O", "O", "", "", ""] ≠ some "O" := by
  decide

/-- C8 (amended): if some listed triple consists of a single non-Empty
symbol `s` and every winning triple on the board carries that same
symbol `s`, then `check_winner` returns `s`. -/
theorem C8_uniform_triple_wins (board : List String) (s : String)
    (hs : s ≠ "")
    (hexists : ∃ t ∈ winning_combinations,
      board.getD t.1 "" = s ∧ board.getD t.2.1 "" = s ∧
        board.getD t.2.2 "" = s)
    (hall : ∀ t ∈ winning_combinations, combo_wins board t = true →
      board.getD t.1 "" = s) :
    check_winner board = some s := by
  obtain ⟨t, ht, h1, h2, h3⟩ := hexists
  have hw : combo_wins board t = true := by
    simp only [combo_wins, Bool.and_eq_true, beq_iff_eq, Bool.not_eq_true',
      beq_eq_false_iff_ne]
    exact ⟨⟨h1.trans h2.symm, h2.trans h3.symm⟩, fun h => hs (h1.symm.trans h)⟩
  have hsome : (winning_combinations.find? (combo_wins board)).isSome := by
    rw [List.find?_isSome]
    exact ⟨t, ht, hw⟩
  obtain ⟨t0, ht0⟩ := Option.isSome_iff_exists.mp hsome
  unfold check_winner
  rw [ht0]
  exact congrArg some
    (hall t0 (List.mem_of_find?_eq_some ht0) (List.find?_some ht0))

/-- C8 witness: a board whose only winning triple is the X top row. -/
theorem C8_uniform_triple_wins_witness :
    check_winner ["X", "X", "X", "", "", "", "", "", ""] = some "X" :=
  C8_uniform_triple_wins ["X", "X", "X", "", "", "", "", "", ""] "X"
    (by decide) (by decide) (by decide)

/-- C9 counterexample: a move filling the last Empty cell with no
winning triple stores the lowercase string `"tie"` in `winner`, which
is not the spec's `"Tie"`. -/
theorem C9_counterexample :
    (make_move
        [("g1", GameState.mk ["X", "X", "O", "O", "O", "X", "X", "O", ""]
            "X" none false 0)] "g1" 8 "X").2 =
      .ok (GameState.mk ["X", "X", "O", "O", "O", "X", "X", "O", "X"]
          "X" (some "tie") true 0, "It\x27s a tie!") ∧
    some ("tie" : String) ≠ some ("Tie" : String) :=
  ⟨rfl, by decide⟩

/-- C9 (amended): a validated move that fills the last Empty cell
without completing a winning triple sets `winner` to the string
`"tie"` (lowercase, not the spec's `"Tie"`) and `game_over` to true. -/
theorem C9_tie_move (games : Games) (game_id : String) (pos : Int)
    (player : String) (g : GameState)
    (hlk : games.lookup game_id = some g)
    (hov : g.game_over = false)
    (hpos : ¬(pos < 0 ∨ pos > 8))
    (hcell : g.board.getD pos.toNat "" = "")
    (hpl : player = g.current_player)
    (hnowin : winning_combinations.find?
      (combo_wins (g.board.set pos.toNat player)) = none)
    (hfull : (g.board.set pos.toNat player).contains "" = false) :
    make_move games game_id pos player =
      (setGame games game_id
        { g with
            board := g.board.set pos.toNat player,
            winner := some "tie",
            game_over := true },
       .ok ({ g with
                board := g.board.set pos.toNat player,
                winner := some "tie",
                game_over := true }, "It\x27s a tie!")) := by
  have hcw : check_winner (g.board.set pos.toNat player) = some "tie" := by
    unfold check_winner
    rw [hnowin, hfull]
    simp
  unfold make_move
  rw [hlk]
  dsimp only
  rw [game_move, if_neg (by simp [hov]), if_neg hpos,
    if_neg (not_not_intro hcell), if_neg (not_not_intro hpl)]
  dsimp only
  rw [hcw, if_pos (show truthy (some "tie") = true from rfl),
    if_pos rfl]

/-- C9 witness: X fills the last empty cell 8 of an otherwise drawn
board; the game records winner `"tie"` and is over. -/
theorem C9_tie_move_witness :
    make_move
      [("g1", GameState.mk ["X", "X", "O", "O", "O", "X", "X", "O", ""]
          "X" none false 0)] "g1" 8 "X" =
    ([("g1", GameState.mk ["X", "X", "O", "O", "O", "X", "X", "O", "X"]
        "X" (some "tie") true 0)],
      .ok (GameState.mk ["X", "X", "O", "O", "O", "X", "X", "O", "X"]
          "X" (some "tie") true 0, "It\x27s a tie!")) :=
  C9_tie_move
    [("g1", GameState.mk ["X", "X", "O", "O", "O", "X", "X", "O", ""]
        "X" none false 0)]
    "g1" 8 "X"
    (GameState.mk ["X", "X", "O", "O", "O", "X", "X", "O", ""] "X" none false 0)
    rfl rfl (by decide) (by decide) rfl (by decide) (by decide)

/-- C10: a move on a reachable game that ends it leaves
`current_player` unchanged — still the player who made the final move —
and the winner is either the tie value or that same player. -/
theorem C10_terminal_move_keeps_player (games games1 : Games)
    (game_id : String) (pos : Int) (player : String)
    (g g1 : GameState) (msg : String)
    (hreach : Reachable games)
    (hlk : games.lookup game_id = some g)
    (hmv : make_move games game_id pos player = (games1, .ok (g1, msg)))
    (hterm : g1.game_over = true) :
    g1.current_player = g.current_player ∧ g1.current_player = player ∧
    (g1.winner = some "tie" ∨ g1.winner = some player) := by
  unfold make_move at hmv
  rw [hlk] at hmv
  dsimp only at hmv
  cases hgm : game_move g pos player with
  | error e =>
    rw [hgm] at hmv
    exact absurd (congrArg Prod.snd hmv) (by simp)
  | ok r =>
    obtain ⟨ga, msga⟩ := r
    rw [hgm] at hmv
    have hga : ga = g1 := by
      have hsnd := congrArg Prod.snd hmv
      simp only at hsnd
      exact ((Prod.mk.injEq _ _ _ _).mp ((Except.ok.injEq _ _).mp hsnd)).1
    subst hga
    obtain ⟨hov, hpos, hcell, hpl, hbr⟩ := game_move_ok _ _ _ _ _ hgm
    have hwf := reachable_Wf hreach game_id g hlk
    rcases hbr with ⟨htr, rfl⟩ | ⟨htr, rfl⟩
    · -- terminal branch
      refine ⟨rfl, hpl.symm, ?_⟩
      show check_winner (g.board.set pos.toNat player) = some "tie" ∨
        check_winner (g.board.set pos.toNat player) = some player
      cases hf : winning_combinations.find?
          (combo_wins (g.board.set pos.toNat player)) with
      | none =>
        left
        unfold check_winner
        rw [hf]
        cases hcont : (g.board.set pos.toNat player).contains "" with
        | true =>
          exfalso
          have hnone : check_winner (g.board.set pos.toNat player) = none := by
            unfold check_winner
            rw [hf, hcont]
            simp
          rw [hnone] at htr
          exact Bool.noConfusion htr
        | false => simp
      | some c =>
        right
        have hcw : check_winner (g.board.set pos.toNat player) =
            some ((g.board.set pos.toNat player).getD c.1 "") := by
          unfold check_winner
          rw [hf]
        rw [hcw]
        have hc : combo_wins (g.board.set pos.toNat player) c = true :=
          List.find?_some hf
        simp only [combo_wins, Bool.and_eq_true, beq_iff_eq,
          Bool.not_eq_true', beq_eq_false_iff_ne] at hc
        obtain ⟨⟨he1, he2⟩, hne⟩ := hc
        have hcm : c ∈ winning_combinations := List.mem_of_find?_eq_some hf
        have hnc : ¬ combo_wins g.board c = true :=
          (List.find?_eq_none.mp (hwf.2.2.2.1 hov)) c hcm
        have hlt : pos.toNat < g.board.length := by
          rw [hwf.1]; omega
        by_cases hp1 : pos.toNat = c.1
        · have h0 : (g.board.set pos.toNat player).getD c.1 "" = player := by
            rw [← hp1]
            exact getD_set_self _ _ _ hlt
          rw [h0]
        by_cases hp2 : pos.toNat = c.2.1
        · have h0 : (g.board.set pos.toNat player).getD c.2.1 "" = player := by
            rw [← hp2]
            exact getD_set_self _ _ _ hlt
          rw [he1, h0]
        by_cases hp3 : pos.toNat = c.2.2
        · have h0 : (g.board.set pos.toNat player).getD c.2.2 "" = player := by
            rw [← hp3]
            exact getD_set_self _ _ _ hlt
          rw [he1, he2, h0]
        exfalso
        apply hnc
        simp only [combo_wins, Bool.and_eq_true, beq_iff_eq,
          Bool.not_eq_true', beq_eq_false_iff_ne]
        rw [← getD_set_ne g.board pos.toNat c.1 player hp1,
          ← getD_set_ne g.board pos.toNat c.2.1 player hp2,
          ← getD_set_ne g.board pos.toNat c.2.2 player hp3]
        exact ⟨⟨he1, he2⟩, hne⟩
    · -- player-switch branch contradicts a terminal result
      exfalso
      simp only at hterm
      rw [hov] at hterm
      exact Bool.noConfusion hterm

/-- C10 witness: X completes the 0-4-8 diagonal in a reachable game;
afterwards `current_player` is still X and equals the winner. -/
theorem C10_terminal_move_keeps_player_witness :
    (GameState.mk ["X", "O", "O", "", "X", "", "", "", "X"] "X"
        (some "X") true 0).current_player =
      (GameState.mk ["X", "O", "O", "", "X", "", "", "", ""] "X"
        none false 0).current_player ∧
    (GameState.mk ["X", "O", "O", "", "X", "", "", "", "X"] "X"
        (some "X") true 0).current_player = "X" ∧
    ((GameState.mk ["X", "O", "O", "", "X", "", "", "", "X"] "X"
        (some "X") true 0).winner = some "tie" ∨
     (GameState.mk ["X", "O", "O", "", "X", "", "", "", "X"] "X"
        (some "X") true 0).winner = some "X") := by
  have hreach : Reachable [("game_1_0",
      GameState.mk ["X", "O", "O", "", "X", "", "", "", ""] "X" none false 0)] :=
    Relation.ReflTransGen.tail
      (Relation.ReflTransGen.tail
        (Relation.ReflTransGen.tail
          (Relation.ReflTransGen.tail
            (Relation.ReflTransGen.single (SysStep.create [] 0))
            (SysStep.move [("game_1_0", create_new_game 0)] "game_1_0" 0 "X"))
          (SysStep.move [("game_1_0", GameState.mk
              ["X", "", "", "", "", "", "", "", ""] "O" none false 0)]
            "game_1_0" 1 "O"))
        (SysStep.move [("game_1_0", GameState.mk
            ["X", "O", "", "", "", "", "", "", ""] "X" none false 0)]
          "game_1_0" 4 "X"))
      (SysStep.move [("game_1_0", GameState.mk
          ["X", "O", "", "", "X", "", "", "", ""] "O" none false 0)]
        "game_1_0" 2 "O")
  exact C10_terminal_move_keeps_player
    [("game_1_0", GameState.mk
        ["X", "O", "O", "", "X", "", "", "", ""] "X" none false 0)]
    [("game_1_0", GameState.mk
        ["X", "O", "O", "", "X", "", "", "", "X"] "X" (some "X") true 0)]
    "game_1_0" 8 "X"
    (GameState.mk ["X", "O", "O", "", "X", "", "", "", ""] "X" none false 0)
    (GameState.mk ["X", "O", "O", "", "X", "", "", "", "X"] "X" (some "X") true 0)
    "Player X wins!" hreach rfl rfl rfl

end TicTacToe
